import Mathlib

/-!
# Verification of the web3-proxy core

A shallow embedding, in Lean 4, of the core logic of the web3-proxy
repository, together with theorems settling the specification claims.

Embedded source files:
* src/provider_tiers.rs — upstream pool selection (Web3ProviderTier)
* web3_proxy/src/rpcs/blockchain.rs — block graph and consensus tracker
* web3_proxy/src/app_stats_old.rs — stats aggregator

Conventions of the embedding:
* Hashes (H256) and numbers (U64) are modelled as Nat; maps (DashMap /
  HashMap) are association lists; atomic counters are plain Nat fields
  (request counters never approach 2^64 so wrap-around is immaterial);
  panics (unwrap / expect / unimplemented / todo) are modelled as
  Except.error with a message naming the panic.
-/

deriving instance DecidableEq for Except

namespace Web3Proxy

/-! ## Association-list maps

DashMap / HashMap are modelled as association lists.  `alookup` is get,
`mapInsert` is insert-or-replace (keyed update), `removeKey` is remove.
-/

def alookup {K V : Type} [DecidableEq K] (k : K) : List (K × V) → Option V
  | [] => none
  | (k', v) :: t => if k = k' then some v else alookup k t

def containsKey {K V : Type} [DecidableEq K] (k : K) (m : List (K × V)) : Bool :=
  (alookup k m).isSome

def mapInsert {K V : Type} [DecidableEq K] (k : K) (v : V) : List (K × V) → List (K × V)
  | [] => [(k, v)]
  | (k', v') :: t => if k = k' then (k, v) :: t else (k', v') :: mapInsert k v t

def removeKey {K V : Type} [DecidableEq K] (k : K) : List (K × V) → List (K × V)
  | [] => []
  | (k', v') :: t => if k = k' then removeKey k t else (k', v') :: removeKey k t

/-! ## src/provider_tiers.rs — Web3ProviderTier

`SyncStatus` comes from block_watcher.rs (only its constructors are used
here); the three variants appear verbatim in the sort predicate of
`update_synced_rpcs`.
-/

inductive SyncStatus : Type where
  | Synced (head : Nat)
  | Behind (head : Nat)
  | Unknown
deriving DecidableEq, Repr

def SyncStatus.isSynced : SyncStatus → Bool
  | .Synced _ => true
  | _ => false

/-- Modelled from the spec: `Web3Connection` implements `Ord` by comparing
active-request counts ascending (provider.rs is not among the given source
files; §3 "Comparable by active-count (lower is better)", §4.B "two
upstreams compare by active_count ascending").  `active` gives each
upstream's active-request count. -/
def connCmp (active : String → Nat) (a b : String) : Ordering :=
  compare (active a) (active b)

/-- The sort predicate of `update_synced_rpcs` (provider_tiers.rs lines
100-147), transcribed arm by arm.  `Ordering.lt` means `a` sorts before
`b` (Rust `sort_unstable_by` sorts ascending by its comparator). -/
def rpcCmp (sync_status : String → SyncStatus) (active : String → Nat)
    (a b : String) : Ordering :=
  match sync_status a, sync_status b with
  | .Synced x, .Synced y =>
    if x ≠ y then compare x y else connCmp active a b
  | .Synced _, .Unknown => .gt
  | .Unknown, .Synced _ => .lt
  | .Unknown, .Unknown => .eq
  | .Synced _, .Behind _ => .gt
  | .Behind _, .Synced _ => .lt
  | .Behind _, .Unknown => .gt
  | .Behind x, .Behind y =>
    if x ≠ y then compare x y else connCmp active a b
  | .Unknown, .Behind _ => .lt

/-- Insert `x` into an already-sorted list, keeping it sorted w.r.t. the
boolean relation `le`. -/
def insertSorted {α : Type} (le : α → α → Bool) (x : α) : List α → List α
  | [] => [x]
  | y :: ys => if le x y then x :: y :: ys else y :: insertSorted le x ys

/-- Insertion sort.  Rust `sort_unstable_by` produces some permutation
sorted by the comparator (the relative order of comparator-equal elements
is unspecified); insertion sort realises one admissible outcome. -/
def sortByCmp {α : Type} (le : α → α → Bool) : List α → List α
  | [] => []
  | x :: xs => insertSorted le x (sortByCmp le xs)

/-- `Web3ProviderTier::update_synced_rpcs` (provider_tiers.rs lines
82-158): sort the pool by `rpcCmp` ascending, then publish the
`takeWhile`-Synced front of the sorted list as `synced_rpcs`. -/
def update_synced_rpcs (rpcs : List String) (sync_status : String → SyncStatus)
    (active : String → Nat) : List String :=
  let sorted := sortByCmp (fun a b => rpcCmp sync_status active a b ≠ .gt) rpcs
  sorted.takeWhile (fun r => (sync_status r).isSynced)

/-- Outcome of `Web3Connection::try_inc_active_requests` for one upstream:
`Except.ok ()` is a granted request handle, `Except.error t` is a denial
whose `NotUntil` has `earliest_possible() = t`. -/
def TryInc : Type := String → Except Nat Unit

/-- The loop body of `next_upstream_server` (provider_tiers.rs lines
161-193): walk the list, keeping the denial with the smallest
`earliest_possible` (the code replaces the kept `NotUntil` only when the
new one is strictly earlier). -/
def nextUpstreamLoop (try_inc : TryInc) : List String → Option Nat → Except (Option Nat) String
  | [], earliest_not_until => .error earliest_not_until
  | selected_rpc :: rest, earliest_not_until =>
    match try_inc selected_rpc with
    | .error not_until =>
      let earliest' :=
        match earliest_not_until with
        | none => some not_until
        | some earliest_possible =>
          if earliest_possible > not_until then some not_until else some earliest_possible
      nextUpstreamLoop try_inc rest earliest'
    | .ok _ => .ok selected_rpc

/-- `Web3ProviderTier::next_upstream_server`: first upstream in
`synced_rpcs` whose `try_inc_active_requests` succeeds; on total failure
`Err(earliest_not_until)` (which is `None` when `synced_rpcs` is empty). -/
def next_upstream_server (try_inc : TryInc) (synced_rpcs : List String) :
    Except (Option Nat) String :=
  nextUpstreamLoop try_inc synced_rpcs none

/-- The `earliest_possible()` values of the denials met along the walk,
in walk order. -/
def denialTimes (try_inc : TryInc) (l : List String) : List Nat :=
  l.filterMap fun r =>
    match try_inc r with
    | .error t => some t
    | .ok _ => none

/-- The kept `earliest_not_until` after folding a list of denial times
into an initial kept value. -/
def mergeEarliest : Option Nat → List Nat → Option Nat
  | acc, [] => acc
  | none, t :: ts => mergeEarliest (some t) ts
  | some e, t :: ts => mergeEarliest (some (min e t)) ts

/-! ## web3_proxy/src/rpcs/blockchain.rs — block graph and consensus tracker -/

/-- `ethers::Block<TxHash>`, restricted to the fields blockchain.rs reads.
`hash`, `number`, `total_difficulty` are `Option` (pending blocks lack
them); `parent_hash` is always present. -/
structure Block : Type where
  hash : Option Nat
  number : Option Nat
  parent_hash : Nat
  total_difficulty : Option Nat
deriving DecidableEq, Repr

/-- `BlockId` (blockchain.rs lines 27-31): a block's hash and number. -/
structure BlockId : Type where
  hash : Nat
  num : Nat
deriving DecidableEq, Repr

/-- `SyncedConnections` (rpcs/synced_connections.rs, used here through its
two fields): the atomically swappable consensus snapshot.  `conns` holds
upstream names (the code stores `Arc<Web3Connection>`; the name identifies
the connection). -/
structure SyncedConnections : Type where
  head_block_id : Option BlockId := none
  conns : List String := []
deriving DecidableEq, Repr

instance : Inhabited SyncedConnections := ⟨{}⟩

/-- The block-graph part of `Web3Connections`: `block_numbers` (number →
canonical hash), `block_hashes` (hash → block), and the petgraph
`blockchain_graphmap` split into its node set and its
parent-hash → child-hash edge list. -/
structure BlockchainState : Type where
  block_numbers : List (Nat × Nat)
  block_hashes : List (Nat × Block)
  graph_nodes : List Nat
  graph_edges : List (Nat × Nat)
deriving DecidableEq, Repr

/-- `Web3Connections::save_block` (blockchain.rs lines 41-99).  The three
`context` checks reject blocks missing hash, number or total difficulty;
`heaviest_chain` upserts `block_numbers[num] = hash` (both `Entry` arms
write the hash; the occupied arm only additionally logs); a block whose
hash is already in `block_hashes`, or already a node of the graph, is left
as is; otherwise it is inserted into `block_hashes` and the graph gains
the node and its parent edge.  (The `block_hashes.insert` returning a
previous value, lines 79-84, is the concurrent-race arm; sequentially it
cannot fire after the `contains_key` check and has no separate state.) -/
def save_block (s : BlockchainState) (block : Block) (heaviest_chain : Bool) :
    Except String BlockchainState :=
  match block.hash with
  | none => .error "no block hash"
  | some block_hash =>
    match block.number with
    | none => .error "no block num"
    | some block_num =>
      match block.total_difficulty with
      | none => .error "no block total difficulty"
      | some _block_td =>
        let s :=
          if heaviest_chain then
            { s with block_numbers := mapInsert block_num block_hash s.block_numbers }
          else s
        if containsKey block_hash s.block_hashes then
          .ok s
        else if block_hash ∈ s.graph_nodes then
          .ok s
        else
          .ok { s with
                block_hashes := mapInsert block_hash block s.block_hashes,
                graph_nodes := block_hash :: s.graph_nodes,
                graph_edges := (block.parent_hash, block_hash) :: s.graph_edges }

/-- The error outcomes of `cannonical_block`, one per `return Err` /
panic site in blockchain.rs lines 160-212. -/
inductive CanonErr : Type where
  | panicMissingHashEntry
  | noServersInSync
  | futureBlock (head_block_num requested : Nat)
  | upstreamFailed
  | saveBlockFailed (msg : String)
deriving DecidableEq, Repr

/-- Result of `cannonical_block`: the returned value or error, the block
graph afterwards, and how many upstream RPC requests were issued. -/
structure CanonResult : Type where
  result : Except CanonErr Block
  state : BlockchainState
  rpc_calls : Nat
deriving DecidableEq, Repr

/-- `Web3Connections::cannonical_block` (blockchain.rs lines 160-212).
`head_block_num` stands for `self.head_block_num()` (defined in
rpcs/connections.rs, outside the given sources: per the spec it is the
current consensus head number, `none` when no servers are in sync).
`fetch num` stands for the `eth_getBlockByNumber` round trip through
`try_send_best_upstream_server` plus parsing (`none` = the request or
parse failed). -/
def cannonical_block (s : BlockchainState) (head_block_num : Option Nat)
    (fetch : Nat → Option Block) (num : Nat) : CanonResult :=
  match alookup num s.block_numbers with
  | some block_hash =>
    match alookup block_hash s.block_hashes with
    | some block => ⟨.ok block, s, 0⟩
    | none => ⟨.error .panicMissingHashEntry, s, 0⟩
  | none =>
    match head_block_num with
    | none => ⟨.error .noServersInSync, s, 0⟩
    | some head_num =>
      if num > head_num then
        ⟨.error (.futureBlock head_num num), s, 0⟩
      else
        match fetch num with
        | none => ⟨.error .upstreamFailed, s, 1⟩
        | some block =>
          match save_block s block true with
          | .ok s' => ⟨.ok block, s', 1⟩
          | .error msg => ⟨.error (.saveBlockFailed msg), s, 1⟩

/-- The head-publication decision of `process_block_from_rpc`
(blockchain.rs lines 405-443): `true` iff `head_block_sender.send` is
called, comparing the new head id against the previous
`SyncedConnections`' head id. -/
def shouldSendHead (old_head : Option BlockId) (heavy_block_id : BlockId) : Bool :=
  match old_head with
  | none => true
  | some old_block_id =>
    match compare heavy_block_id.num old_block_id.num with
    | .eq => heavy_block_id.hash != old_block_id.hash
    | .lt => true
    | .gt => true

/-- The whole per-event state of the consensus tracker: the shared block
graph, the `connection_heads` map (upstream name → last head hash) and the
published `SyncedConnections`. -/
structure TrackerState : Type where
  chain : BlockchainState
  connection_heads : List (String × Nat)
  synced_connections : SyncedConnections
deriving DecidableEq, Repr

/-- Tracker configuration: `self.conns` (upstream name → `soft_limit`),
`self.min_sum_soft_limit` and `self.min_synced_rpcs`. -/
structure TrackerConfig : Type where
  conns : List (String × Nat)
  min_sum_soft_limit : Nat
  min_synced_rpcs : Nat

/-- Lines 287-318 of blockchain.rs: scan `connection_heads.values()`,
skipping hashes already checked, and keep the block with the strictly
highest total difficulty (first seen wins ties).  A head hash missing from
`block_hashes` is an `unwrap` panic; a stored head without total
difficulty hits `unimplemented!`. -/
def highestWorkBlock (block_hashes : List (Nat × Block)) :
    List Nat → List Nat → Option Block → Except String (Option Block)
  | [], _, best => .ok best
  | rpc_head_hash :: rest, checked_heads, best =>
    if rpc_head_hash ∈ checked_heads then
      highestWorkBlock block_hashes rest checked_heads best
    else
      match alookup rpc_head_hash block_hashes with
      | none => .error "panic: unwrap of missing connection head block"
      | some rpc_head_block =>
        match rpc_head_block.total_difficulty with
        | none => .error "unimplemented: block is missing total difficulty"
        | some td =>
          match best with
          | none =>
            highestWorkBlock block_hashes rest (rpc_head_hash :: checked_heads)
              (some rpc_head_block)
          | some cur =>
            match cur.total_difficulty with
            | none => .error "panic: there should always be total difficulty here"
            | some cur_td =>
              highestWorkBlock block_hashes rest (rpc_head_hash :: checked_heads)
                (if td > cur_td then some rpc_head_block else some cur)

/-- Lines 339-350 of blockchain.rs: the upstreams whose
`connection_heads` entry equals `maybe_head_hash`, paired with their
`soft_limit`; a matching name absent from `self.conns` is only warned
about and skipped. -/
def findMatchingRpcs (connection_heads : List (String × Nat))
    (conns : List (String × Nat)) (maybe_head_hash : Nat) : List (String × Nat) :=
  connection_heads.filterMap fun p =>
    if p.2 = maybe_head_hash then (alookup p.1 conns).map (fun sl => (p.1, sl)) else none

/-- The `for _ in 0..3` walk of blockchain.rs lines 332-375.  `heavy_rpcs`
and `heavy_sum_soft_limit` are declared OUTSIDE the loop (lines 323-325)
and accumulate across iterations; `walked` records each visited hash.
Returns `some (heavy_block, heavy_rpcs)` when an ancestor qualifies,
`none` when the fuel runs out or a parent is missing (both fall to the
empty-`SyncedConnections` swap). -/
def consensusWalk (cfg : TrackerConfig) (connection_heads : List (String × Nat))
    (block_hashes : List (Nat × Block)) :
    Nat → Block → List String → Nat → List Nat →
    Except String (Option (Block × List String) × List Nat)
  | 0, _, _, _, walked => .ok (none, walked)
  | fuel + 1, maybe_head_block, heavy_rpcs, heavy_sum_soft_limit, walked =>
    match maybe_head_block.hash with
    | none => .error "panic: blocks here always need hashes"
    | some maybe_head_hash =>
      let matched := findMatchingRpcs connection_heads cfg.conns maybe_head_hash
      let heavy_rpcs' := heavy_rpcs ++ matched.map Prod.fst
      let heavy_sum' := heavy_sum_soft_limit + (matched.map Prod.snd).sum
      let walked' := walked ++ [maybe_head_hash]
      if heavy_sum' < cfg.min_sum_soft_limit ∨ heavy_rpcs'.length < cfg.min_synced_rpcs then
        match alookup maybe_head_block.parent_hash block_hashes with
        | some parent_block =>
          consensusWalk cfg connection_heads block_hashes fuel parent_block
            heavy_rpcs' heavy_sum' walked'
        | none => .ok (none, walked')
      else
        .ok (some (maybe_head_block, heavy_rpcs'), walked')

/-- Lines 378-445 of blockchain.rs: build the new `SyncedConnections`
from the qualifying block and the accumulated `heavy_rpcs`, swap it in,
and decide (via `shouldSendHead`, the `match` on the old head id) whether
`head_block_sender.send(heavy_block)` fires. -/
def publishConsensus (old : SyncedConnections) (heavy_block : Block)
    (conns : List String) : Except String (SyncedConnections × Option Block) :=
  match heavy_block.hash, heavy_block.number with
  | some heavy_hash, some heavy_num =>
    let heavy_block_id : BlockId := ⟨heavy_hash, heavy_num⟩
    let new_synced_connections : SyncedConnections := ⟨some heavy_block_id, conns⟩
    let sent := if shouldSendHead old.head_block_id heavy_block_id then some heavy_block else none
    .ok (new_synced_connections, sent)
  | _, _ => .error "panic: head blocks always have hashes and numbers"

/-- Step 1 of `process_block_from_rpc` (blockchain.rs lines 253-282):
a block without hash or number, or with number 0, removes the reporting
upstream from `connection_heads`; otherwise the upstream's entry is set
to the block's hash and the block is stored via `save_block(_, false)`. -/
def processBlockStep1 (s : TrackerState) (rpc_head_block : Block) (rpc : String) :
    Except String (List (String × Nat) × BlockchainState) :=
  match rpc_head_block.hash, rpc_head_block.number with
  | some rpc_head_hash, some rpc_head_num =>
    if rpc_head_num = 0 then
      .ok (removeKey rpc s.connection_heads, s.chain)
    else
      match save_block s.chain rpc_head_block false with
      | .ok chain' => .ok (mapInsert rpc rpc_head_hash s.connection_heads, chain')
      | .error e => .error e
  | _, _ => .ok (removeKey rpc s.connection_heads, s.chain)

/-- `Web3Connections::process_block_from_rpc` (blockchain.rs lines
245-458) as a state transformer: one `(block, rpc)` event maps the
tracker state to the new state together with the block sent on
`head_block_sender` (`none` when nothing is sent).  After step 1, step 2
picks the highest-total-difficulty head among `connection_heads`; step 3
runs the qualify walk; a qualifying ancestor is published through
`publishConsensus`, and a failed walk swaps in the default (empty)
`SyncedConnections`.  When no head candidate exists at all, the function
returns with the published `SyncedConnections` untouched. -/
def process_block_from_rpc (cfg : TrackerConfig) (s : TrackerState)
    (rpc_head_block : Block) (rpc : String) :
    Except String (TrackerState × Option Block) :=
  match processBlockStep1 s rpc_head_block rpc with
  | .error e => .error e
  | .ok (connection_heads, chain') =>
    match highestWorkBlock chain'.block_hashes (connection_heads.map Prod.snd) [] none with
    | .error e => .error e
    | .ok none =>
      .ok ({ chain := chain', connection_heads := connection_heads,
             synced_connections := s.synced_connections }, none)
    | .ok (some maybe_head_block) =>
      match consensusWalk cfg connection_heads chain'.block_hashes 3
          maybe_head_block [] 0 [] with
      | .error e => .error e
      | .ok (some (heavy_block, heavy_rpcs), _walked) =>
        match publishConsensus s.synced_connections heavy_block heavy_rpcs with
        | .error e => .error e
        | .ok (new_synced_connections, sent) =>
          .ok ({ chain := chain', connection_heads := connection_heads,
                 synced_connections := new_synced_connections }, sent)
      | .ok (none, _walked) =>
        .ok ({ chain := chain', connection_heads := connection_heads,
               synced_connections := {} }, none)

/-! ## web3_proxy/src/app_stats_old.rs — stats aggregator -/

/-- `ProxyResponseStat` (app_stats_old.rs lines 22-34): one completed
frontend request. -/
structure ProxyResponseStat : Type where
  rpc_key_id : Nat
  method : String
  archive_request : Bool
  period_seconds : Nat
  period_timestamp : Nat
  request_bytes : Nat
  backend_requests : Nat
  error_response : Bool
  response_bytes : Nat
  response_millis : Nat
deriving DecidableEq, Repr

/-- `UserProxyResponseKey` (app_stats_old.rs lines 80-85). -/
structure UserProxyResponseKey : Type where
  rpc_key_id : Nat
  method : String
  error_response : Bool
deriving DecidableEq, Repr

def statKey (stat : ProxyResponseStat) : UserProxyResponseKey :=
  ⟨stat.rpc_key_id, stat.method, stat.error_response⟩

/-- `ProxyResponseAggregate` (app_stats_old.rs lines 60-78).  The
`AtomicU64` counters are Nat (request counts never approach 2^64); each
HDR histogram is modelled as the list of values recorded into it (the
flusher's min/mean/percentile extraction is outside the claims). -/
structure ProxyResponseAggregate : Type where
  period_timestamp : Nat
  archive_request : Bool
  frontend_requests : Nat
  backend_requests : Nat
  backend_retries : Nat
  no_servers : Nat
  cache_misses : Nat
  cache_hits : Nat
  sum_request_bytes : Nat
  sum_response_bytes : Nat
  sum_response_millis : Nat
  hist_request_bytes : List Nat
  hist_response_bytes : List Nat
  hist_response_millis : List Nat
deriving DecidableEq, Repr

/-- The `Entry::Vacant` arm of `aggregate_stat` (app_stats_old.rs lines
391-415): a fresh aggregate with every counter and sum at 0, carrying the
creating record's `period_timestamp` and `archive_request`. -/
def newAggregate (stat : ProxyResponseStat) : ProxyResponseAggregate where
  period_timestamp := stat.period_timestamp
  archive_request := stat.archive_request
  frontend_requests := 0
  backend_requests := 0
  backend_retries := 0
  no_servers := 0
  cache_misses := 0
  cache_hits := 0
  sum_request_bytes := 0
  sum_response_bytes := 0
  sum_response_millis := 0
  hist_request_bytes := []
  hist_response_bytes := []
  hist_response_millis := []

/-- The update section of `aggregate_stat` (app_stats_old.rs lines
418-455): `frontend_requests += 1`; a record with `backend_requests == 0`
is a cache hit, otherwise a cache miss that also adds the record's
`backend_requests`; then the three sums and the three histogram
recordings. -/
def updateAggregate (agg : ProxyResponseAggregate) (stat : ProxyResponseStat) :
    ProxyResponseAggregate :=
  let agg := { agg with frontend_requests := agg.frontend_requests + 1 }
  let agg :=
    if stat.backend_requests = 0 then
      { agg with cache_hits := agg.cache_hits + 1 }
    else
      { agg with cache_misses := agg.cache_misses + 1,
                 backend_requests := agg.backend_requests + stat.backend_requests }
  { agg with
    sum_request_bytes := agg.sum_request_bytes + stat.request_bytes,
    sum_response_bytes := agg.sum_response_bytes + stat.response_bytes,
    sum_response_millis := agg.sum_response_millis + stat.response_millis,
    hist_request_bytes := stat.request_bytes :: agg.hist_request_bytes,
    hist_response_bytes := stat.response_bytes :: agg.hist_response_bytes,
    hist_response_millis := stat.response_millis :: agg.hist_response_millis }

/-- The inner `UserProxyResponseCache`: key → aggregate. -/
def InnerCache : Type := List (UserProxyResponseKey × ProxyResponseAggregate)

/-- The per-bucket body of `StatEmitter::aggregate_stat` (app_stats_old.rs
lines 387-455): look up or create (`Entry::Occupied` / `Entry::Vacant`)
the aggregate for the record's key inside the bucket's inner map, then
apply the counter updates to it. -/
def applyStatInner (inner : InnerCache) (stat : ProxyResponseStat) : InnerCache :=
  let key := statKey stat
  match alookup key inner with
  | some user_aggregate => mapInsert key (updateAggregate user_aggregate stat) inner
  | none => mapInsert key (updateAggregate (newAggregate stat) stat) inner

/-- `StatEmitter::aggregate_stat` (app_stats_old.rs lines 373-460) over
the two-level cache: `get_with(period_timestamp, Default::default)` on
the outer cache, then `applyStatInner` in the bucket. -/
def aggregate_stat (outer : List (Nat × InnerCache)) (stat : ProxyResponseStat) :
    List (Nat × InnerCache) :=
  let user_cache := (alookup stat.period_timestamp outer).getD []
  mapInsert stat.period_timestamp (applyStatInner user_cache stat) outer

/-- The row fields `save_stats_loop` persists per `(key, aggregate)`
(app_stats_old.rs lines 312-351), restricted to the scalar columns; the
per-histogram min/mean/percentile columns are summarised by the recorded
value lists. -/
structure StatRow : Type where
  rpc_key_id : Nat
  chain_id : Nat
  method : String
  archive_request : Bool
  error_response : Bool
  period_timestamp : Nat
  frontend_requests : Nat
  backend_requests : Nat
  backend_retries : Nat
  no_servers : Nat
  cache_misses : Nat
  cache_hits : Nat
  sum_request_bytes : Nat
  sum_response_bytes : Nat
  sum_response_millis : Nat
  hist_request_bytes : List Nat
  hist_response_bytes : List Nat
  hist_response_millis : List Nat
deriving DecidableEq, Repr

/-- One iteration of the flush loop (app_stats_old.rs lines 265-351):
snapshot the aggregate's fields into the persisted row.  The key supplies
`rpc_key_id`, `method`, `error_response`; the aggregate supplies
`archive_request`, `period_timestamp` and all counters and sums. -/
def flushRow (chain_id : Nat) (k : UserProxyResponseKey) (v : ProxyResponseAggregate) :
    StatRow where
  rpc_key_id := k.rpc_key_id
  chain_id := chain_id
  method := k.method
  archive_request := v.archive_request
  error_response := k.error_response
  period_timestamp := v.period_timestamp
  frontend_requests := v.frontend_requests
  backend_requests := v.backend_requests
  backend_retries := v.backend_retries
  no_servers := v.no_servers
  cache_misses := v.cache_misses
  cache_hits := v.cache_hits
  sum_request_bytes := v.sum_request_bytes
  sum_response_bytes := v.sum_response_bytes
  sum_response_millis := v.sum_response_millis
  hist_request_bytes := v.hist_request_bytes
  hist_response_bytes := v.hist_response_bytes
  hist_response_millis := v.hist_response_millis

/-- The tail of `StatEmitter::aggregate_stats_loop` after the shutdown
signal breaks the select loop (app_stats_old.rs lines 238-255): every
outer entry is invalidated (its inner map is handed to the save queue by
the eviction listener), `sync()` runs, and then the code reaches
`todo!("drop self.aggregated_proxy_responses")` — which panics — BEFORE
`finished_rx.recv_async()` and the final `Ok(())`.  The result is the
list of inner maps delivered to the flush queue paired with the loop's
outcome, the `todo!` panic modelled as `Except.error`. -/
def aggregateStatsLoopShutdown (outer : List (Nat × InnerCache)) :
    List InnerCache × Except String Unit :=
  let flushed := outer.map Prod.snd
  (flushed, .error "panic: not yet implemented: drop self.aggregated_proxy_responses")

/-! ## Spec predicates and concrete instances used by the theorems -/

/-- The aggregate invariant of the spec: `frontend_requests = cache_hits +
cache_misses` and `backend_requests ≥ cache_misses`. -/
def StatInv (a : ProxyResponseAggregate) : Prop :=
  a.frontend_requests = a.cache_hits + a.cache_misses ∧ a.backend_requests ≥ a.cache_misses

instance (a : ProxyResponseAggregate) : Decidable (StatInv a) := by
  unfold StatInv; infer_instance

/-- The per-walked-hash contribution to `heavy_rpcs`: the names of the
configured upstreams whose `connection_heads` entry is `h`. -/
def matchedNames (connection_heads : List (String × Nat)) (conns : List (String × Nat))
    (h : Nat) : List String :=
  (findMatchingRpcs connection_heads conns h).map Prod.fst

/-- A two-upstream pool where `a` is synced and `b` is behind. -/
def c1status : String → SyncStatus := fun r =>
  if r = "a" then .Synced 100 else .Behind 90

def c1active : String → Nat := fun _ => 0

/-- All upstreams synced, at different heads. -/
def c1statusAll : String → SyncStatus := fun r =>
  if r = "a" then .Synced 100 else .Synced 200

/-- Upstream `a` denies with earliest-possible 5, `b` denies with 3,
anything else succeeds. -/
def witTryInc : TryInc := fun r =>
  if r = "a" then .error 5 else if r = "b" then .error 3 else .ok ()

/-- Block at height 9, hash 1 (the common ancestor). -/
def c2blockA : Block := ⟨some 1, some 9, 0, some 100⟩

/-- Block at height 10, hash 2, child of hash 1, highest total difficulty. -/
def c2blockB : Block := ⟨some 2, some 10, 1, some 101⟩

/-- Two upstreams with soft limit 1 each; consensus needs a summed soft
limit of 2 from at least 1 upstream. -/
def c2cfg : TrackerConfig := ⟨[("u1", 1), ("u2", 1)], 2, 1⟩

def c2chain : BlockchainState :=
  ⟨[], [(1, c2blockA), (2, c2blockB)], [1, 2], [(0, 1), (1, 2)]⟩

/-- `u1` already has head hash 2 (block B); nothing published yet. -/
def c2state : TrackerState := ⟨c2chain, [("u1", 2)], {}⟩

/-- The event: `u2` reports block A (hash 1) as its head. -/
def c2result : Except String (TrackerState × Option Block) :=
  process_block_from_rpc c2cfg c2state c2blockA "u2"

/-- Tracker state with one tracked upstream and a non-empty published
`SyncedConnections`. -/
def c9state : TrackerState := ⟨c2chain, [("u1", 5)], ⟨some ⟨1, 9⟩, ["u1"]⟩⟩

/-- A still-syncing head event: number 0. -/
def c9block : Block := ⟨some 7, some 0, 0, some 1⟩

def c6state : BlockchainState := ⟨[], [], [], []⟩

def c6block : Block := ⟨some 1, some 1, 0, some 5⟩

def c7fetch : Nat → Option Block := fun _ => none

/-- A cache-miss record: 2 backend requests. -/
def c8stat : ProxyResponseStat :=
  ⟨11, "eth_call", false, 60, 0, 10, 2, false, 20, 30⟩

/-- A record with the same key as `c8stat` but a different
`archive_request` flag. -/
def c10statFirst : ProxyResponseStat :=
  ⟨11, "eth_call", true, 60, 0, 10, 2, false, 20, 30⟩

def c10statLater : ProxyResponseStat :=
  ⟨11, "eth_call", false, 60, 0, 4, 0, false, 6, 7⟩

/-! ## Helper lemmas -/

theorem mapInsert_idem {K V : Type} [DecidableEq K] (k : K) (v : V) (m : List (K × V)) :
    mapInsert k v (mapInsert k v m) = mapInsert k v m := by
  induction m with
  | nil => simp [mapInsert]
  | cons hd t ih =>
    obtain ⟨k', v'⟩ := hd
    by_cases h : k = k' <;> simp [mapInsert, h, ih]

theorem alookup_mapInsert_self {K V : Type} [DecidableEq K] (k : K) (v : V) (m : List (K × V)) :
    alookup k (mapInsert k v m) = some v := by
  induction m with
  | nil => simp [mapInsert, alookup]
  | cons hd t ih =>
    obtain ⟨k', v'⟩ := hd
    by_cases h : k = k' <;> simp [mapInsert, alookup, h, ih]

theorem alookup_mapInsert_ne {K V : Type} [DecidableEq K] (k k' : K) (v : V)
    (m : List (K × V)) (hne : k ≠ k') :
    alookup k (mapInsert k' v m) = alookup k m := by
  induction m with
  | nil => simp [mapInsert, alookup, hne]
  | cons hd t ih =>
    obtain ⟨k'', v''⟩ := hd
    by_cases h : k' = k''
    · subst h
      simp [mapInsert, alookup, hne]
    · by_cases h2 : k = k'' <;> simp [mapInsert, alookup, h, h2, ih]

theorem containsKey_mapInsert_self {K V : Type} [DecidableEq K] (k : K) (v : V)
    (m : List (K × V)) : containsKey k (mapInsert k v m) = true := by
  simp [containsKey, alookup_mapInsert_self]

/-! ## C1 — update_synced_rpcs sort order -/

/-- C1: the sort predicate of `update_synced_rpcs` is inverted with
respect to the claimed order.  With upstream `a` Synced at head 100 and
`b` Behind at head 90, the claim requires the sorted pool `[a, b]` and
`synced_rpcs = [a]`; the code sorts `Behind` BEFORE `Synced` (the
`(Synced, Behind)` arm returns `Greater`), so the pool sorts to `[b, a]`
and the Synced `takeWhile` front is empty.  Likewise with both upstreams
Synced (`a` at 100, `b` at 200) the claim requires higher head first,
`[b, a]`; the code compares head numbers ascending and publishes
`[a, b]`. -/
theorem update_synced_rpcs_order_inverted :
    update_synced_rpcs ["a", "b"] c1status c1active = []
    ∧ update_synced_rpcs ["a", "b"] c1statusAll c1active = ["a", "b"] := by
  constructor <;> rfl

/-! ## C5 — stats shutdown path -/

/-- C5: the shutdown path of `aggregate_stats_loop` never returns
normally: after evicting every outer-cache entry to the flush queue it
reaches `todo!("drop self.aggregated_proxy_responses")`, which panics
before `finished_rx.recv_async()` can wait for the flusher.  The claim
says the loop waits for the flusher to drain and returns without
panicking; the code cannot. -/
theorem aggregate_stats_shutdown_panics (outer : List (Nat × InnerCache)) :
    (aggregateStatsLoopShutdown outer).1 = outer.map Prod.snd
    ∧ ∃ msg, (aggregateStatsLoopShutdown outer).2 = .error msg := by
  exact ⟨rfl, "panic: not yet implemented: drop self.aggregated_proxy_responses", rfl⟩

/-! ## C3 — head publication rule -/

/-- C3: the consensus tracker's head-publication decision (the `match` on
the old `SyncedConnections` head id, embedded as `shouldSendHead` and used
by `publishConsensus`) sends the new head block iff the previous snapshot
had no head, or the numbers differ (rollback or advance), or the numbers
are equal but the hashes differ (sibling fork); with equal number and
hash nothing is sent. -/
theorem head_publication_rule (old_head : Option BlockId) (heavy : BlockId) :
    shouldSendHead old_head heavy = true ↔
      (old_head = none ∨ ∃ old, old_head = some old ∧
        (heavy.num ≠ old.num ∨ (heavy.num = old.num ∧ heavy.hash ≠ old.hash))) := by
  cases old_head with
  | none => simp [shouldSendHead]
  | some o =>
    rcases Nat.lt_trichotomy heavy.num o.num with h | h | h
    · have hc : compare heavy.num o.num = .lt := Nat.compare_eq_lt.2 h
      simp [shouldSendHead, hc, Nat.ne_of_lt h]
    · have hc : compare heavy.num o.num = .eq := Nat.compare_eq_eq.2 h
      simp only [shouldSendHead, hc]
      simp [h, bne_iff_ne]
    · have hc : compare heavy.num o.num = .gt := Nat.compare_eq_gt.2 h
      simp [shouldSendHead, hc, (Nat.ne_of_lt h).symm]

/-! ## C6 — save_block idempotence -/

/-- C6: for a block with hash, number and total difficulty present,
calling `save_block` twice in sequence leaves the block graph exactly as
one call does: the first call succeeds with some state `s1`, and the
second call maps `s1` back to `s1`. -/
theorem save_block_idempotent (s : BlockchainState) (b : Block) (hv : Bool)
    (hh : b.hash.isSome) (hn : b.number.isSome) (ht : b.total_difficulty.isSome) :
    ∃ s1, save_block s b hv = .ok s1 ∧ save_block s1 b hv = .ok s1 := by
  obtain ⟨bh, hbh⟩ := Option.isSome_iff_exists.mp hh
  obtain ⟨bn, hbn⟩ := Option.isSome_iff_exists.mp hn
  obtain ⟨bt, hbt⟩ := Option.isSome_iff_exists.mp ht
  cases hv with
  | false =>
    by_cases hc : containsKey bh s.block_hashes = true
    · exact ⟨s, by simp [save_block, hbh, hbn, hbt, hc],
        by simp [save_block, hbh, hbn, hbt, hc]⟩
    · by_cases hm : bh ∈ s.graph_nodes
      · exact ⟨s, by simp [save_block, hbh, hbn, hbt, hc, hm],
          by simp [save_block, hbh, hbn, hbt, hc, hm]⟩
      · refine ⟨⟨s.block_numbers, mapInsert bh b s.block_hashes,
          bh :: s.graph_nodes, (b.parent_hash, bh) :: s.graph_edges⟩, ?_, ?_⟩
        · simp [save_block, hbh, hbn, hbt, hc, hm]
        · simp [save_block, hbh, hbn, hbt, containsKey_mapInsert_self]
  | true =>
    by_cases hc : containsKey bh s.block_hashes = true
    · exact ⟨{ s with block_numbers := mapInsert bn bh s.block_numbers },
        by simp [save_block, hbh, hbn, hbt, hc],
        by simp [save_block, hbh, hbn, hbt, hc, mapInsert_idem]⟩
    · by_cases hm : bh ∈ s.graph_nodes
      · exact ⟨{ s with block_numbers := mapInsert bn bh s.block_numbers },
          by simp [save_block, hbh, hbn, hbt, hc, hm],
          by simp [save_block, hbh, hbn, hbt, hc, hm, mapInsert_idem]⟩
      · refine ⟨⟨mapInsert bn bh s.block_numbers, mapInsert bh b s.block_hashes,
          bh :: s.graph_nodes, (b.parent_hash, bh) :: s.graph_edges⟩, ?_, ?_⟩
        · simp [save_block, hbh, hbn, hbt, hc, hm]
        · simp [save_block, hbh, hbn, hbt, containsKey_mapInsert_self, mapInsert_idem]

/-- Witness for C6 at a concrete empty graph and complete block. -/
theorem save_block_idempotent_witness :
    c6block.hash.isSome ∧ c6block.number.isSome ∧ c6block.total_difficulty.isSome
    ∧ ∃ s1, save_block c6state c6block true = .ok s1 ∧ save_block s1 c6block true = .ok s1 :=
  ⟨rfl, rfl, rfl, save_block_idempotent c6state c6block true rfl rfl rfl⟩

/-! ## C7 — cannonical_block future-block guard -/

/-- C7: a requested number absent from the `block_numbers` cache and
strictly above the current consensus head number fails with the
future-block error before any upstream request is built: the result is
the error, the block graph is returned unchanged, and zero RPC calls are
issued. -/
theorem cannonical_block_future_block (s : BlockchainState) (fetch : Nat → Option Block)
    (head_num num : Nat) (hmiss : alookup num s.block_numbers = none)
    (hfuture : head_num < num) :
    cannonical_block s (some head_num) fetch num =
      ⟨.error (.futureBlock head_num num), s, 0⟩ := by
  simp [cannonical_block, hmiss, hfuture]

/-- Witness for C7: empty cache, head number 5, request 7. -/
theorem cannonical_block_future_block_witness :
    alookup 7 c6state.block_numbers = none ∧ 5 < 7
    ∧ cannonical_block c6state (some 5) c7fetch 7 =
        ⟨.error (.futureBlock 5 7), c6state, 0⟩ :=
  ⟨rfl, by decide, cannonical_block_future_block c6state c7fetch 5 7 rfl (by decide)⟩

/-! ## C8 — aggregate counter invariant -/

/-- C8: a freshly created aggregate has all counters at zero and
satisfies the invariant, and every record update preserves
`frontend_requests = cache_hits + cache_misses` and
`backend_requests ≥ cache_misses`: the record adds 1 to
`frontend_requests` and exactly one of `cache_hits` (record with zero
backend requests) or `cache_misses` (record with at least one backend
request, whose count is also added to `backend_requests`). -/
theorem aggregate_stat_invariant (a : ProxyResponseAggregate) (stat : ProxyResponseStat)
    (hinv : StatInv a) :
    StatInv (updateAggregate a stat)
    ∧ StatInv (newAggregate stat)
    ∧ (newAggregate stat).frontend_requests = 0
    ∧ (newAggregate stat).cache_hits = 0
    ∧ (newAggregate stat).cache_misses = 0
    ∧ (newAggregate stat).backend_requests = 0
    ∧ (updateAggregate a stat).frontend_requests = a.frontend_requests + 1
    ∧ (stat.backend_requests = 0 →
        (updateAggregate a stat).cache_hits = a.cache_hits + 1
        ∧ (updateAggregate a stat).cache_misses = a.cache_misses
        ∧ (updateAggregate a stat).backend_requests = a.backend_requests)
    ∧ (stat.backend_requests ≠ 0 →
        1 ≤ stat.backend_requests
        ∧ (updateAggregate a stat).cache_misses = a.cache_misses + 1
        ∧ (updateAggregate a stat).cache_hits = a.cache_hits
        ∧ (updateAggregate a stat).backend_requests
            = a.backend_requests + stat.backend_requests) := by
  obtain ⟨h1, h2⟩ := hinv
  by_cases h0 : stat.backend_requests = 0 <;>
    simp [StatInv, updateAggregate, newAggregate, h0] <;> omega

/-- Witness for C8: the invariant holds at a fresh zero aggregate and is
preserved by the concrete cache-miss record `c8stat`. -/
theorem aggregate_stat_invariant_witness :
    StatInv (newAggregate c8stat)
    ∧ StatInv (updateAggregate (newAggregate c8stat) c8stat) :=
  ⟨by decide, (aggregate_stat_invariant (newAggregate c8stat) c8stat (by decide)).1⟩

/-! ## C9 — frame property when connection_heads empties -/

/-- C9: an event that takes a removal branch of step 1 (no hash, no
number, or number 0) and leaves `connection_heads` empty produces no
`SyncedConnections` swap and sends nothing: the previously published
snapshot, and the block graph, stay exactly as they were; only
`connection_heads` changes (to empty). -/
theorem process_block_frame_on_empty_heads (cfg : TrackerConfig) (s : TrackerState)
    (blk : Block) (rpc : String)
    (hremove : blk.hash = none ∨ blk.number = none ∨ blk.number = some 0)
    (hempty : removeKey rpc s.connection_heads = []) :
    process_block_from_rpc cfg s blk rpc =
      .ok ({ s with connection_heads := [] }, none) := by
  have hstep1 : processBlockStep1 s blk rpc = .ok ([], s.chain) := by
    rcases hremove with h | h | h
    · simp [processBlockStep1, h, hempty]
    · rcases hh : blk.hash with _ | bh <;> simp [processBlockStep1, hh, h, hempty]
    · rcases hh : blk.hash with _ | bh <;> simp [processBlockStep1, hh, h, hempty]
  simp [process_block_from_rpc, hstep1, highestWorkBlock]

/-- Witness for C9: `u1`, the only tracked upstream, reports a block with
number 0; the non-empty published `SyncedConnections` of `c9state`
survives untouched. -/
theorem process_block_frame_witness :
    (c9block.hash = none ∨ c9block.number = none ∨ c9block.number = some 0)
    ∧ removeKey "u1" c9state.connection_heads = []
    ∧ process_block_from_rpc c2cfg c9state c9block "u1" =
        .ok ({ c9state with connection_heads := [] }, none) :=
  ⟨by decide, by decide,
    process_block_frame_on_empty_heads c2cfg c9state c9block "u1"
      (by decide) (by decide)⟩

/-! ## C10 — archive_request is fixed at aggregate creation -/

theorem updateAggregate_archive (a : ProxyResponseAggregate) (stat : ProxyResponseStat) :
    (updateAggregate a stat).archive_request = a.archive_request := by
  by_cases h0 : stat.backend_requests = 0 <;> simp [updateAggregate, h0]

theorem applyStatInner_archive (k : UserProxyResponseKey) (v : Bool) (inner : InnerCache)
    (stat : ProxyResponseStat)
    (h : ∃ agg, alookup k inner = some agg ∧ agg.archive_request = v) :
    ∃ agg, alookup k (applyStatInner inner stat) = some agg ∧ agg.archive_request = v := by
  obtain ⟨agg, hl, hv⟩ := h
  by_cases hk : statKey stat = k
  · subst hk
    refine ⟨updateAggregate agg stat, ?_, ?_⟩
    · simp [applyStatInner, hl, alookup_mapInsert_self]
    · rw [updateAggregate_archive]; exact hv
  · refine ⟨agg, ?_, hv⟩
    have hne : k ≠ statKey stat := fun he => hk he.symm
    unfold applyStatInner
    cases halt : alookup (statKey stat) inner with
    | none =>
      simp only [halt]
      rw [alookup_mapInsert_ne _ _ _ _ hne]
      exact hl
    | some a2 =>
      simp only [halt]
      rw [alookup_mapInsert_ne _ _ _ _ hne]
      exact hl

theorem archive_fixed_foldl (k : UserProxyResponseKey) (v : Bool) :
    ∀ (ss : List ProxyResponseStat) (inner : InnerCache),
      (∃ agg, alookup k inner = some agg ∧ agg.archive_request = v) →
      ∃ agg, alookup k (ss.foldl applyStatInner inner) = some agg ∧ agg.archive_request = v := by
  intro ss
  induction ss with
  | nil => intro inner h; exact h
  | cons s rest ih =>
    intro inner h
    exact ih (applyStatInner inner s) (applyStatInner_archive k v inner s h)

/-- C10: once the first record `s0` creates the aggregate for its key in
a period bucket (the `Entry::Vacant` arm copies `s0.archive_request`), no
later record — whatever `archive_request` it carries — changes the
stored flag, and the flushed row reports the creating record's value. -/
theorem archive_request_fixed_by_first (chain_id : Nat) (s0 : ProxyResponseStat)
    (ss : List ProxyResponseStat) (inner0 : InnerCache)
    (h0 : alookup (statKey s0) inner0 = none) :
    ∃ agg, alookup (statKey s0) (ss.foldl applyStatInner (applyStatInner inner0 s0)) = some agg
      ∧ agg.archive_request = s0.archive_request
      ∧ (flushRow chain_id (statKey s0) agg).archive_request = s0.archive_request := by
  have hbase : ∃ agg, alookup (statKey s0) (applyStatInner inner0 s0) = some agg
      ∧ agg.archive_request = s0.archive_request := by
    refine ⟨updateAggregate (newAggregate s0) s0, ?_, ?_⟩
    · simp [applyStatInner, h0, alookup_mapInsert_self]
    · rw [updateAggregate_archive]; rfl
  obtain ⟨agg, hl, hv⟩ := archive_fixed_foldl (statKey s0) s0.archive_request ss _ hbase
  exact ⟨agg, hl, hv, by simpa [flushRow] using hv⟩

/-- Witness for C10: `c10statFirst` (archive = true) creates the
aggregate; `c10statLater` (archive = false, same key) does not change the
stored flag, and the flushed row reports true. -/
theorem archive_request_fixed_witness :
    alookup (statKey c10statFirst) ([] : InnerCache) = none
    ∧ ∃ agg, alookup (statKey c10statFirst)
        ([c10statLater].foldl applyStatInner (applyStatInner [] c10statFirst)) = some agg
      ∧ agg.archive_request = c10statFirst.archive_request
      ∧ (flushRow 1 (statKey c10statFirst) agg).archive_request = c10statFirst.archive_request :=
  ⟨rfl, archive_request_fixed_by_first 1 c10statFirst [c10statLater] [] rfl⟩

/-! ## C4 — next_upstream_server walk -/

theorem nextUpstreamLoop_first_ok (try_inc : TryInc) (r : String) (post : List String) :
    ∀ (pre : List String) (acc : Option Nat),
      (∀ x ∈ pre, ∃ t, try_inc x = .error t) → try_inc r = .ok () →
      nextUpstreamLoop try_inc (pre ++ r :: post) acc = .ok r := by
  intro pre
  induction pre with
  | nil => intro acc _ hr; simp [nextUpstreamLoop, hr]
  | cons p rest ih =>
    intro acc h hr
    obtain ⟨t, ht⟩ := h p (List.mem_cons_self p rest)
    have hrest : ∀ x ∈ rest, ∃ u, try_inc x = .error u :=
      fun x hx => h x (List.mem_cons_of_mem p hx)
    simp only [List.cons_append, nextUpstreamLoop, ht]
    exact ih _ hrest hr

theorem nextUpstreamLoop_all_denied (try_inc : TryInc) :
    ∀ (l : List String) (acc : Option Nat),
      (∀ x ∈ l, ∃ t, try_inc x = .error t) →
      nextUpstreamLoop try_inc l acc = .error (mergeEarliest acc (denialTimes try_inc l)) := by
  intro l
  induction l with
  | nil => intro acc _; simp [nextUpstreamLoop, denialTimes, mergeEarliest]
  | cons r rest ih =>
    intro acc h
    obtain ⟨t, ht⟩ := h r (List.mem_cons_self r rest)
    have hrest : ∀ x ∈ rest, ∃ u, try_inc x = .error u :=
      fun x hx => h x (List.mem_cons_of_mem r hx)
    cases acc with
    | none =>
      simp only [nextUpstreamLoop, ht]
      rw [ih (some t) hrest]
      simp [denialTimes, ht, mergeEarliest]
    | some e =>
      simp only [nextUpstreamLoop, ht]
      have hmin : (if e > t then some t else some e) = some (min e t) := by
        split <;> exact congrArg some (by omega)
      rw [hmin, ih (some (min e t)) hrest]
      simp [denialTimes, ht, mergeEarliest]

theorem mergeEarliest_some_foldl (ts : List Nat) :
    ∀ e, mergeEarliest (some e) ts = some (ts.foldl min e) := by
  induction ts with
  | nil => intro e; rfl
  | cons t ts ih => intro e; simpa [mergeEarliest] using ih (min e t)

theorem foldl_min_le_init (ts : List Nat) : ∀ e, ts.foldl min e ≤ e := by
  induction ts with
  | nil => intro e; exact Nat.le_refl e
  | cons t ts ih =>
    intro e
    exact Nat.le_trans (ih (min e t)) (Nat.min_le_left e t)

theorem foldl_min_le_mem (ts : List Nat) : ∀ e, ∀ t ∈ ts, ts.foldl min e ≤ t := by
  induction ts with
  | nil => intro e t ht; cases ht
  | cons u ts ih =>
    intro e t ht
    rcases List.mem_cons.mp ht with h | h
    · subst h
      exact Nat.le_trans (foldl_min_le_init ts (min e t)) (Nat.min_le_right e t)
    · exact ih (min e u) t h

theorem foldl_min_mem_or (ts : List Nat) : ∀ e, ts.foldl min e = e ∨ ts.foldl min e ∈ ts := by
  induction ts with
  | nil => intro e; exact Or.inl rfl
  | cons t ts ih =>
    intro e
    rcases ih (min e t) with h | h
    · rcases min_choice e t with he | ht
      · exact Or.inl (by rw [List.foldl_cons, h, he])
      · exact Or.inr (by rw [List.foldl_cons, h, ht]; exact List.mem_cons_self t ts)
    · exact Or.inr (List.mem_cons_of_mem t h)

/-- C4: `next_upstream_server` walks `synced_rpcs` in order: (1) an empty
list fails with `Err(None)` (the no-servers case, distinct from any
rate-limit error); (2) the first upstream whose
`try_inc_active_requests` succeeds, after any run of denials, is
returned; (3) if the list is non-empty and every upstream denies, the
result is `Err(Some m)` where `m` is the minimum `earliest_possible`
over all the denials. -/
theorem next_upstream_server_spec (try_inc : TryInc) (synced_rpcs : List String) :
    (synced_rpcs = [] → next_upstream_server try_inc synced_rpcs = .error none)
    ∧ (∀ pre r post, synced_rpcs = pre ++ r :: post →
        (∀ x ∈ pre, ∃ t, try_inc x = .error t) → try_inc r = .ok () →
        next_upstream_server try_inc synced_rpcs = .ok r)
    ∧ (synced_rpcs ≠ [] → (∀ x ∈ synced_rpcs, ∃ t, try_inc x = .error t) →
        ∃ m, next_upstream_server try_inc synced_rpcs = .error (some m)
          ∧ m ∈ denialTimes try_inc synced_rpcs
          ∧ ∀ t ∈ denialTimes try_inc synced_rpcs, m ≤ t) := by
  refine ⟨?_, ?_, ?_⟩
  · intro h; subst h; rfl
  · intro pre r post hsplit hpre hr
    subst hsplit
    exact nextUpstreamLoop_first_ok try_inc r post pre none hpre hr
  · intro hne hall
    cases synced_rpcs with
    | nil => exact absurd rfl hne
    | cons r rest =>
      obtain ⟨t, ht⟩ := hall r (List.mem_cons_self r rest)
      have hdt : denialTimes try_inc (r :: rest) = t :: denialTimes try_inc rest := by
        simp [denialTimes, ht]
      refine ⟨(denialTimes try_inc rest).foldl min t, ?_, ?_, ?_⟩
      · rw [show next_upstream_server try_inc (r :: rest)
            = nextUpstreamLoop try_inc (r :: rest) none from rfl,
          nextUpstreamLoop_all_denied try_inc (r :: rest) none hall, hdt]
        simp [mergeEarliest, mergeEarliest_some_foldl]
      · rw [hdt]
        rcases foldl_min_mem_or (denialTimes try_inc rest) t with h | h
        · rw [h]; exact List.mem_cons_self t _
        · exact List.mem_cons_of_mem t h
      · intro u hu
        rw [hdt] at hu
        rcases List.mem_cons.mp hu with h | h
        · subst h; exact foldl_min_le_init _ u
        · exact foldl_min_le_mem _ t u h

/-- Witness for C4 (all-denied arm): with `a` denied until 5 and `b`
denied until 3, the walk fails carrying a minimal denial time. -/
theorem next_upstream_server_spec_witness :
    (["a", "b"] : List String) ≠ []
    ∧ (∃ m, next_upstream_server witTryInc ["a", "b"] = .error (some m)
        ∧ m ∈ denialTimes witTryInc ["a", "b"]
        ∧ ∀ t ∈ denialTimes witTryInc ["a", "b"], m ≤ t) :=
  ⟨by decide,
    (next_upstream_server_spec witTryInc ["a", "b"]).2.2 (by decide)
      (by
        intro x hx
        cases hx with
        | head => exact ⟨5, by decide⟩
        | tail _ hx2 =>
          cases hx2 with
          | head => exact ⟨3, by decide⟩
          | tail _ hx3 => cases hx3)⟩

/-! ## C2 — which upstreams end up in the published conns set -/

/-- C2, counterexample to the claim as stated: `u2` reporting block A
(hash 1, height 9) makes B (hash 2, height 10, held by `u1`) the
candidate head; B alone fails the capacity check (soft limit 1 < 2), the
walk descends to A which qualifies — and the published conns set is
`["u1", "u2"]`, although `u1`'s `connection_heads` entry is hash 2, not
the published ancestor's hash 1.  The claimed exact equality with the set
of upstreams on the ancestor's hash (`{u2}` here) is false. -/
theorem process_block_accumulates_descendants :
    c2result = .ok (⟨c2chain, [("u1", 2), ("u2", 1)], ⟨some ⟨1, 9⟩, ["u1", "u2"]⟩⟩,
        some c2blockA)
    ∧ (["u1", "u2"] : List String).all
        (fun n => alookup n [("u1", 2), ("u2", 1)] == some 1) = false := by
  constructor
  · rfl
  · decide

theorem getLast?_cons_of_ne_nil {α : Type} (a : α) (l : List α) (h : l ≠ []) :
    (a :: l).getLast? = l.getLast? := by
  cases l with
  | nil => exact absurd rfl h
  | cons b t => exact List.getLast?_cons_cons

theorem consensusWalk_conns_characterisation (cfg : TrackerConfig)
    (heads : List (String × Nat)) (hashes : List (Nat × Block)) :
    ∀ (fuel : Nat) (b : Block) (acc : List String) (sum : Nat) (walked : List Nat)
      (hb : Block) (conns : List String) (w : List Nat),
      consensusWalk cfg heads hashes fuel b acc sum walked = .ok (some (hb, conns), w) →
      ∃ ws, ws ≠ [] ∧ w = walked ++ ws
        ∧ conns = acc ++ (ws.map (matchedNames heads cfg.conns)).flatten
        ∧ ws.getLast? = hb.hash := by
  intro fuel
  induction fuel with
  | zero =>
    intro b acc sum walked hb conns w h
    simp [consensusWalk] at h
  | succ fuel ih =>
    intro b acc sum walked hb conns w h
    rw [consensusWalk] at h
    cases hbh : b.hash with
    | none => rw [hbh] at h; exact absurd h (by simp)
    | some mh =>
      rw [hbh] at h
      simp only at h
      by_cases hcond :
          sum + ((findMatchingRpcs heads cfg.conns mh).map Prod.snd).sum
              < cfg.min_sum_soft_limit
            ∨ (acc ++ (findMatchingRpcs heads cfg.conns mh).map Prod.fst).length
              < cfg.min_synced_rpcs
      · rw [if_pos hcond] at h
        cases hp : alookup b.parent_hash hashes with
        | none => rw [hp] at h; exact absurd h (by simp)
        | some parent_block =>
          rw [hp] at h
          obtain ⟨ws, hne, hw, hc, hl⟩ := ih parent_block _ _ _ hb conns w h
          refine ⟨mh :: ws, by simp, ?_, ?_, ?_⟩
          · rw [hw, List.append_assoc]; rfl
          · rw [hc, List.append_assoc]
            simp [matchedNames]
          · rw [getLast?_cons_of_ne_nil mh ws hne]; exact hl
      · rw [if_neg hcond] at h
        cases h
        refine ⟨[mh], by simp, rfl, ?_, ?_⟩
        · simp [matchedNames]
        · rw [hbh]; rfl

/-- C2 (amended): whenever the up-to-3-deep walk qualifies an ancestor,
the published conns list is the concatenation, over every walked block
(the candidate head and each checked ancestor, the qualifying one last),
of the configured upstreams whose `connection_heads` entry is that walked
block's hash — `heavy_rpcs` accumulates across the walk (blockchain.rs
declares it outside the `for` loop), so upstreams whose heads are
descendants that failed the capacity check are included alongside those
on the ancestor itself. -/
theorem consensus_conns_are_walked_heads (cfg : TrackerConfig)
    (heads : List (String × Nat)) (hashes : List (Nat × Block)) (fuel : Nat)
    (b hb : Block) (conns : List String) (w : List Nat)
    (h : consensusWalk cfg heads hashes fuel b [] 0 [] = .ok (some (hb, conns), w)) :
    w ≠ [] ∧ conns = (w.map (matchedNames heads cfg.conns)).flatten
      ∧ w.getLast? = hb.hash := by
  obtain ⟨ws, hne, hw, hc, hl⟩ :=
    consensusWalk_conns_characterisation cfg heads hashes fuel b [] 0 [] hb conns w h
  rw [List.nil_append] at hw
  subst hw
  exact ⟨hne, by simpa using hc, hl⟩

/-- Witness for C2 (amended) at the concrete two-upstream fork scenario:
the walk qualifies ancestor A after visiting B, and the published conns
list `["u1", "u2"]` is the concatenation of the matches of walked hashes
`[2, 1]`. -/
theorem consensus_conns_are_walked_heads_witness :
    consensusWalk c2cfg [("u1", 2), ("u2", 1)] c2chain.block_hashes 3 c2blockB [] 0 []
        = .ok (some (c2blockA, ["u1", "u2"]), [2, 1])
    ∧ (([2, 1] : List Nat) ≠ []
        ∧ ["u1", "u2"]
            = (([2, 1] : List Nat).map
                (matchedNames [("u1", 2), ("u2", 1)] c2cfg.conns)).flatten
        ∧ ([2, 1] : List Nat).getLast? = c2blockA.hash) :=
  ⟨by decide,
    consensus_conns_are_walked_heads c2cfg [("u1", 2), ("u2", 1)] c2chain.block_hashes 3
      c2blockB c2blockA ["u1", "u2"] [2, 1] (by decide)⟩

end Web3Proxy
